import Mathlib

/-!
# Environment presets and formatters of the logging packages

Shallow embedding of

* `pkg/logger/env.go` (`InitFromEnv`, `getEnv`, `getEnvBool`),
* `pkg/logger/init_env.go` (`EnvConfig`, `isSandboxEnv`),
* `pkg/logm/preset.go` (`Development`, `Production`, `FromEnv`, `isSandboxEnv`),
* the helpers `formatTime`, `loadTimezone`, `defaultOptions`, `Text` of
  `pkg/logm/formatter`; the package is known by `formatter_test.go` and by the
  specification, and these are written from the specification.

Go strings are Lean strings, Go `bool` is `Bool`, a nil-able pointer or interface
value is a `Nilable`.
-/

/-- Go value that may be nil (pointer, interface, or "variable not set"). -/
abbrev Nilable (α : Type) : Type := Option α

/-! ## Standard library: `os`, `strings`, `time` -/

namespace os

/-- Process environment: the value of each variable that is set. -/
abbrev Environ : Type := String → Nilable String

/-- Go `os.Getenv`: the value of the variable, empty when it is not set. -/
def Getenv (env : Environ) (key : String) : String :=
  match env key with
  | some value => value
  | none => ""

end os

namespace strings

/-- Go `unicode.ToLower` on one rune.  ASCII runes are lowered by the
`A`..`Z` rule; `lowerRune` stands for the Unicode case table on the runes above
`MaxASCII`. -/
def toLowerRune (lowerRune : Char → Char) (c : Char) : Char :=
  if c.toNat < 128 then c.toLower else lowerRune c

/-- Go `strings.ToLower`: every rune mapped to its lower case. -/
def ToLower (lowerRune : Char → Char) (s : String) : String :=
  String.mk (s.data.map (toLowerRune lowerRune))

end strings

namespace time

/-- Go `*time.Location`: a zone name and, for each instant (seconds since the
epoch), the abbreviation and the offset east of UTC (seconds) in force. -/
structure Location where
  name : String
  lookup : Int → String × Int

/-- Go `time.UTC`. -/
def UTC : Location :=
  { name := "UTC", lookup := fun _ => ("UTC", 0) }

/-- What the process knows about zones: `time.Local` and the IANA database
behind `time.LoadLocation` (nil for a name it cannot resolve); a location that
is loaded carries the name it was asked by. -/
structure Zoneinfo where
  Local : Location
  LoadLocation : String → Nilable Location
  named : ∀ tz loc, LoadLocation tz = some loc → loc.name = tz

/-- Go `time.Time` seen in a location: seconds since the epoch, nanoseconds
within the second, and the zone abbreviation and offset of its location. -/
structure Time where
  unix : Int
  nsec : Fin 1000000000
  zone : String
  offset : Int

/-- Go `Time.In`: the same instant, seen in `loc`. -/
def Time.In (t : Time) (loc : Location) : Time :=
  { t with zone := (loc.lookup t.unix).1, offset := (loc.lookup t.unix).2 }

/-! ### Calendar fields -/

/-- Seconds since the epoch on the wall clock of the time's zone. -/
def Time.wall (t : Time) : Int := t.unix + t.offset

/-- Whole days since 1970-01-01 on the wall clock (floor). -/
def Time.days (t : Time) : Int := t.wall / 86400

/-- Second within the wall-clock day, `0 ≤ · < 86400`. -/
def Time.secondOfDay (t : Time) : Nat := (t.wall % 86400).toNat

/-- Go `Time.Hour`. -/
def Time.Hour (t : Time) : Nat := t.secondOfDay / 3600

/-- Go `Time.Minute`. -/
def Time.Minute (t : Time) : Nat := t.secondOfDay % 3600 / 60

/-- Go `Time.Second`. -/
def Time.Second (t : Time) : Nat := t.secondOfDay % 60

/-- Go `Time.Nanosecond`. -/
def Time.Nanosecond (t : Time) : Nat := t.nsec.val

/-- Proleptic Gregorian date `(year, month, day)` of a day count since
1970-01-01 (eras of 400 years starting on 1 March). -/
def civil (days : Int) : Int × Nat × Nat :=
  let z := days + 719468
  let era := z / 146097
  let doe := (z % 146097).toNat
  let yoe := (doe - doe / 1460 + doe / 36524 - doe / 146096) / 365
  let doy := doe - (365 * yoe + yoe / 4 - yoe / 100)
  let mp := (5 * doy + 2) / 153
  let d := doy - (153 * mp + 2) / 5 + 1
  let m := if mp < 10 then mp + 3 else mp - 9
  let y := (yoe : Int) + era * 400
  (if m ≤ 2 then y + 1 else y, m, d)

/-- Go `Time.Year`. -/
def Time.Year (t : Time) : Int := (civil t.days).1

/-- Go `Time.Month`, `1..12`. -/
def Time.Month (t : Time) : Nat := (civil t.days).2.1

/-- Go `Time.Day`, `1..31`. -/
def Time.Day (t : Time) : Nat := (civil t.days).2.2

/-- Go `Time.Weekday`, `0` is Sunday; 1970-01-01 was a Thursday. -/
def Time.Weekday (t : Time) : Nat := ((t.days + 4) % 7).toNat

/-- Leap year rule of the Gregorian calendar. -/
def isLeap (year : Int) : Bool :=
  year % 4 = 0 ∧ (year % 100 ≠ 0 ∨ year % 400 = 0)

/-- Days of the year before the first of each month, in a common year. -/
def daysBefore : List Nat := [0, 31, 59, 90, 120, 151, 181, 212, 243, 273, 304, 334]

/-- Go `Time.YearDay`, `1..366`. -/
def Time.YearDay (t : Time) : Nat :=
  daysBefore.getD (t.Month - 1) 0 + t.Day + (if isLeap t.Year ∧ 2 < t.Month then 1 else 0)

/-- Go `Time.Unix`. -/
def Time.Unix (t : Time) : Int := t.unix

/-- Go `Time.UnixMilli`. -/
def Time.UnixMilli (t : Time) : Int := t.unix * 1000 + (t.nsec.val / 1000000 : Nat)

/-! ### Layouts (`Time.Format`) -/

/-- Go `appendInt`: decimal digits of `x`, zero-padded to `width`, after a
minus sign when `x` is negative. -/
def appendInt (x : Int) (width : Nat) : List Char :=
  let ds := Nat.toDigits 10 x.natAbs
  (if x < 0 then ['-'] else []) ++ List.replicate (width - ds.length) '0' ++ ds

/-- The `k` low decimal digits of `n`, high digit first. -/
def fixedDigits : Nat → Nat → List Char
  | 0, _ => []
  | k + 1, n => fixedDigits k (n / 10) ++ [Nat.digitChar (n % 10)]

/-- The elements a layout is made of (Go `std...` constants); a fractional
second carries its digit count and its separator. -/
inductive Chunk where
  | stdLongMonth | stdMonth | stdNumMonth | stdZeroMonth
  | stdLongWeekDay | stdWeekDay
  | stdDay | stdUnderDay | stdZeroDay | stdUnderYearDay | stdZeroYearDay
  | stdHour | stdHour12 | stdZeroHour12
  | stdMinute | stdZeroMinute | stdSecond | stdZeroSecond
  | stdLongYear | stdYear
  | stdPM | stdpm
  | stdTZ
  | stdISO8601TZ | stdISO8601SecondsTZ | stdISO8601ShortTZ
  | stdISO8601ColonTZ | stdISO8601ColonSecondsTZ
  | stdNumTZ | stdNumSecondsTz | stdNumShortTZ
  | stdNumColonTZ | stdNumColonSecondsTZ
  | stdFracSecond0 (digits : Nat) (sep : Char)
  | stdFracSecond9 (digits : Nat) (sep : Char)
deriving DecidableEq, Repr

/-- Whether the layout text `l` begins with `p`. -/
def hasPre (p : String) (l : List Char) : Bool := p.data.isPrefixOf l

/-- Go `startsWithLowerCase`. -/
def startsWithLowerCase (l : List Char) : Bool :=
  match l with
  | [] => false
  | c :: _ => 'a' ≤ c ∧ c ≤ 'z'

/-- Go `isDigit(s, 0)`. -/
def isDigit (l : List Char) : Bool :=
  match l with
  | [] => false
  | c :: _ => '0' ≤ c ∧ c ≤ '9'

/-- Go `std0x`: the element behind `01` .. `06`. -/
def std0x (d : Char) : Chunk :=
  if d = '1' then .stdZeroMonth
  else if d = '2' then .stdZeroDay
  else if d = '3' then .stdZeroHour12
  else if d = '4' then .stdZeroMinute
  else if d = '5' then .stdZeroSecond
  else .stdYear

/-- One position of Go `nextStdChunk`: the element that begins at the head of
`l`, with the literal text that comes before it (only `_2006` has one) and
the count of layout characters it takes; nil when the head is plain text. -/
def chunkAt (l : List Char) : Nilable (List Char × Chunk × Nat) :=
  match l with
  | [] => none
  | c :: rest =>
    if c = 'J' then
      if hasPre "January" l then some ([], .stdLongMonth, 7)
      else if hasPre "Jan" l ∧ ¬ startsWithLowerCase (l.drop 3) then some ([], .stdMonth, 3)
      else none
    else if c = 'M' then
      if hasPre "Monday" l then some ([], .stdLongWeekDay, 6)
      else if hasPre "Mon" l ∧ ¬ startsWithLowerCase (l.drop 3) then some ([], .stdWeekDay, 3)
      else if hasPre "MST" l then some ([], .stdTZ, 3)
      else none
    else if c = '0' then
      match rest with
      | [] => none
      | d :: _ =>
        if '1' ≤ d ∧ d ≤ '6' then some ([], std0x d, 2)
        else if hasPre "002" l then some ([], .stdZeroYearDay, 3)
        else none
    else if c = '1' then
      if hasPre "15" l then some ([], .stdHour, 2) else some ([], .stdNumMonth, 1)
    else if c = '2' then
      if hasPre "2006" l then some ([], .stdLongYear, 4) else some ([], .stdDay, 1)
    else if c = '_' then
      if hasPre "_2006" l then some (['_'], .stdLongYear, 5)
      else if hasPre "_2" l then some ([], .stdUnderDay, 2)
      else if hasPre "__2" l then some ([], .stdUnderYearDay, 3)
      else none
    else if c = '3' then some ([], .stdHour12, 1)
    else if c = '4' then some ([], .stdMinute, 1)
    else if c = '5' then some ([], .stdSecond, 1)
    else if c = 'P' then
      if hasPre "PM" l then some ([], .stdPM, 2) else none
    else if c = 'p' then
      if hasPre "pm" l then some ([], .stdpm, 2) else none
    else if c = '-' then
      if hasPre "-070000" l then some ([], .stdNumSecondsTz, 7)
      else if hasPre "-07:00:00" l then some ([], .stdNumColonSecondsTZ, 9)
      else if hasPre "-0700" l then some ([], .stdNumTZ, 5)
      else if hasPre "-07:00" l then some ([], .stdNumColonTZ, 6)
      else if hasPre "-07" l then some ([], .stdNumShortTZ, 3)
      else none
    else if c = 'Z' then
      if hasPre "Z070000" l then some ([], .stdISO8601SecondsTZ, 7)
      else if hasPre "Z07:00:00" l then some ([], .stdISO8601ColonSecondsTZ, 9)
      else if hasPre "Z0700" l then some ([], .stdISO8601TZ, 5)
      else if hasPre "Z07:00" l then some ([], .stdISO8601ColonTZ, 6)
      else if hasPre "Z07" l then some ([], .stdISO8601ShortTZ, 3)
      else none
    else if c = '.' ∨ c = ',' then
      match rest with
      | [] => none
      | d :: _ =>
        if d = '0' ∨ d = '9' then
          let n := (rest.takeWhile (fun x => x == d)).length
          if isDigit (rest.drop n) then none
          else if d = '0' then some ([], .stdFracSecond0 (n % 4096) c, n + 1)
          else some ([], .stdFracSecond9 (n % 4096) c, n + 1)
        else none
    else none

/-- Go month names. -/
def longMonthNames : List String :=
  ["January", "February", "March", "April", "May", "June", "July", "August",
   "September", "October", "November", "December"]

/-- Go weekday names. -/
def longDayNames : List String :=
  ["Sunday", "Monday", "Tuesday", "Wednesday", "Thursday", "Friday", "Saturday"]

/-- Go `appendNano`: the fractional second with `n` digits after `dot`;
`trim` (the `9` form) drops trailing zeros, and the separator with them. -/
def appendNano (nanosec : Nat) (trim : Bool) (n : Nat) (dot : Char) : List Char :=
  if trim ∧ (n = 0 ∨ nanosec = 0) then []
  else
    let out := dot :: (appendInt nanosec 9).take n
    if trim then
      let cut := (out.reverse.dropWhile (fun x => x == '0')).reverse
      match cut.reverse with
      | [] => cut
      | last :: front => if last = '.' ∨ last = ',' then front.reverse else cut
    else out

/-- The zone offset elements (`-0700`, `Z07:00`, ...): sign, hours, and then
minutes and seconds as the element asks; the `Z` forms print `Z` at offset 0. -/
def appendZone (offset : Int) (iso colon minutes seconds : Bool) : List Char :=
  if offset = 0 ∧ iso then ['Z']
  else
    let zone := Int.tdiv offset 60
    let sign := if zone < 0 then '-' else '+'
    let zone := if zone < 0 then -zone else zone
    let absoffset := if Int.tdiv offset 60 < 0 then -offset else offset
    [sign] ++ appendInt (Int.tdiv zone 60) 2
      ++ (if colon then [':'] else [])
      ++ (if minutes then appendInt (Int.tmod zone 60) 2 else [])
      ++ (if seconds then (if colon then [':'] else []) ++ appendInt (Int.tmod absoffset 60) 2
          else [])

/-- The hour on the 12-hour clock: noon and midnight are 12. -/
def hour12 (hour : Nat) : Nat := if hour % 12 = 0 then 12 else hour % 12

/-- The text of one layout element for `t` (the `switch` of Go
`Time.appendFormat`). -/
def Time.chunk (t : Time) : Chunk → List Char
  | .stdYear => appendInt ((t.Year.natAbs : Int) % 100) 2
  | .stdLongYear => appendInt t.Year 4
  | .stdMonth => ((longMonthNames.getD (t.Month - 1) "").data).take 3
  | .stdLongMonth => (longMonthNames.getD (t.Month - 1) "").data
  | .stdNumMonth => appendInt t.Month 0
  | .stdZeroMonth => appendInt t.Month 2
  | .stdWeekDay => ((longDayNames.getD t.Weekday "").data).take 3
  | .stdLongWeekDay => (longDayNames.getD t.Weekday "").data
  | .stdDay => appendInt t.Day 0
  | .stdUnderDay => (if t.Day < 10 then [' '] else []) ++ appendInt t.Day 0
  | .stdZeroDay => appendInt t.Day 2
  | .stdUnderYearDay =>
    (if t.YearDay < 100 then [' '] else []) ++ (if t.YearDay < 10 then [' '] else [])
      ++ appendInt t.YearDay 0
  | .stdZeroYearDay => appendInt t.YearDay 3
  | .stdHour => appendInt t.Hour 2
  | .stdHour12 => appendInt (hour12 t.Hour) 0
  | .stdZeroHour12 => appendInt (hour12 t.Hour) 2
  | .stdMinute => appendInt t.Minute 0
  | .stdZeroMinute => appendInt t.Minute 2
  | .stdSecond => appendInt t.Second 0
  | .stdZeroSecond => appendInt t.Second 2
  | .stdPM => if 12 ≤ t.Hour then "PM".data else "AM".data
  | .stdpm => if 12 ≤ t.Hour then "pm".data else "am".data
  | .stdTZ => if t.zone ≠ "" then t.zone.data else appendZone t.offset false false true false
  | .stdISO8601TZ => appendZone t.offset true false true false
  | .stdISO8601ColonTZ => appendZone t.offset true true true false
  | .stdISO8601SecondsTZ => appendZone t.offset true false true true
  | .stdISO8601ShortTZ => appendZone t.offset true false false false
  | .stdISO8601ColonSecondsTZ => appendZone t.offset true true true true
  | .stdNumTZ => appendZone t.offset false false true false
  | .stdNumColonTZ => appendZone t.offset false true true false
  | .stdNumSecondsTz => appendZone t.offset false false true true
  | .stdNumShortTZ => appendZone t.offset false false false false
  | .stdNumColonSecondsTZ => appendZone t.offset false true true true
  | .stdFracSecond0 n sep => appendNano t.Nanosecond false n sep
  | .stdFracSecond9 n sep => appendNano t.Nanosecond true n sep

/-- The loop of Go `Time.appendFormat` over the layout text: plain characters
are copied, an element is replaced by its text and its `skip` remaining
characters are passed over. -/
def Time.appendFormat (t : Time) : Nat → List Char → List Char
  | _, [] => []
  | skip + 1, _ :: rest => t.appendFormat skip rest
  | 0, c :: rest =>
    match chunkAt (c :: rest) with
    | some (lit, std, n) => lit ++ t.chunk std ++ t.appendFormat (n - 1) rest
    | none => c :: t.appendFormat 0 rest

/-- Go `Time.Format`: `t` written after the layout. -/
def Time.Format (t : Time) (layout : String) : String :=
  String.mk (t.appendFormat 0 layout.data)

end time

/-! ## `pkg/logm/formatter`: options -/

namespace formatter

/-- Modelled from the spec: `loadTimezone` (its source file is missing).  Empty
string or an unresolvable name gives the process local zone, `UTC` or a valid
IANA zone name gives that zone; the result is always a location. -/
def loadTimezone (zi : time.Zoneinfo) (tz : String) : time.Location :=
  if tz = "" then zi.Local
  else if tz = "UTC" then time.UTC
  else
    match zi.LoadLocation tz with
    | some loc => loc
    | none => zi.Local

/-- Modelled from the spec: `Options` (FormatOptions), the time layout selector
and the timezone of one formatter. -/
structure Options where
  TimeFormat : String
  Location : time.Location

/-- Modelled from the spec: `Option`, a functional option of a formatter (the
tests apply one to an `Options` value). -/
abbrev Option : Type := Options → Options

/-- Modelled from the spec: `defaultOptions`, layout `datetime` in the local
zone (`TestDefaultOptions`). -/
def defaultOptions (zi : time.Zoneinfo) : Options :=
  { TimeFormat := "datetime", Location := zi.Local }

/-- Modelled from the spec: `WithTimeFormat` sets the layout selector
(`TestWithTimeFormat`). -/
def WithTimeFormat (format : String) : Option :=
  fun o => { o with TimeFormat := format }

/-- Modelled from the spec: `WithTimezone` sets the zone resolved by
`loadTimezone` (`TestWithTimezone`). -/
def WithTimezone (zi : time.Zoneinfo) (tz : String) : Option :=
  fun o => { o with Location := loadTimezone zi tz }

/-- Modelled from the spec: the options of a formatter built with `opts...`,
set once at construction: the defaults, then every option applied in order. -/
def newOptions (zi : time.Zoneinfo) (opts : List Option) : Options :=
  opts.foldl (fun o f => f o) (defaultOptions zi)

/-- Modelled from the spec: the JSON formatter, a value with its options. -/
structure JSONFormatter where
  opts : Options

/-- Modelled from the spec: the text formatter, a value with its options. -/
structure TextFormatter where
  opts : Options

/-- Modelled from the spec: the color formatter, a value with its options. -/
structure ColorFormatter where
  opts : Options

/-- Modelled from the spec: constructor `JSON(opts...)`. -/
def JSON (zi : time.Zoneinfo) (opts : List Option) : JSONFormatter :=
  { opts := newOptions zi opts }

/-- Modelled from the spec: constructor `Text(opts...)`. -/
def Text (zi : time.Zoneinfo) (opts : List Option) : TextFormatter :=
  { opts := newOptions zi opts }

/-- Modelled from the spec: constructor `Color(opts...)`. -/
def Color (zi : time.Zoneinfo) (opts : List Option) : ColorFormatter :=
  { opts := newOptions zi opts }

/-! ### Time rendering -/

/-- Modelled from the spec: the clock `HH:MM:SS` of the layout table. -/
def clockText (t : time.Time) : List Char :=
  time.appendInt t.Hour 2 ++ [':'] ++ time.appendInt t.Minute 2 ++ [':']
    ++ time.appendInt t.Second 2

/-- Modelled from the spec: the date `YYYY-MM-DD` of the layout table. -/
def dateText (t : time.Time) : List Char :=
  time.appendInt t.Year 4 ++ ['-'] ++ time.appendInt t.Month 2 ++ ['-']
    ++ time.appendInt t.Day 2

/-- Modelled from the spec: the millisecond fraction `mmm` of the layout
table. -/
def milliText (t : time.Time) : List Char :=
  time.appendInt (t.Nanosecond / 1000000 : Nat) 3

/-- Modelled from the spec: the zone of the `rfc3339` rows, `Z` at offset zero,
else the offset as `+hh:mm` or `-hh:mm`. -/
def zoneText (t : time.Time) : List Char :=
  time.appendZone t.offset true true true false

/-- Modelled from the spec: `formatTime` (its source file is missing), the
time-layout table of section 6.  Each named selector has the rendering of its
row, the empty selector is the default `datetime`, and any other literal is a
custom layout template, which is a layout of `Time.Format`.  The table gives no
digit rule for `unixfloat` (a floating-point text): `unixfloat` stands for that
rendering. -/
def formatTime (unixfloat : time.Time → String) (t : time.Time) (format : String) :
    String :=
  if format = "time" then String.mk (clockText t)
  else if format = "timems" then String.mk (clockText t ++ ['.'] ++ milliText t)
  else if format = "datetime" ∨ format = "" then
    String.mk (dateText t ++ [' '] ++ clockText t)
  else if format = "rfc3339" then
    String.mk (dateText t ++ ['T'] ++ clockText t ++ zoneText t)
  else if format = "rfc3339ms" then
    String.mk (dateText t ++ ['T'] ++ clockText t ++ ['.'] ++ milliText t ++ zoneText t)
  else if format = "unix" then toString t.Unix
  else if format = "unixms" then toString t.UnixMilli
  else if format = "unixfloat" then unixfloat t
  else t.Format format

/-! ### Records and the text encoding -/

/-- Go `slog.Level`, restricted to the four levels of the data model. -/
inductive Level where
  | LevelDebug
  | LevelInfo
  | LevelWarn
  | LevelError
deriving DecidableEq, Repr

/-- Go `slog.Level.String` on the four levels. -/
def Level.String : Level → String
  | .LevelDebug => "DEBUG"
  | .LevelInfo => "INFO"
  | .LevelWarn => "WARN"
  | .LevelError => "ERROR"

/-- Go `slog.Source`. -/
structure Source where
  Function : String
  File : String
  Line : Int
deriving DecidableEq, Repr

/-- Go `slog.Attr`: a key with a string, integer or boolean value, a value of
another kind (float, duration, time) carried as its text, or a group of
attributes. -/
inductive Attr where
  | string (key : String) (value : String)
  | int64 (key : String) (value : Int)
  | bool (key : String) (value : Bool)
  | other (key : String) (text : String)
  | group (key : String) (members : List Attr)

/-- Modelled from the spec: `Record` (section 3). -/
structure Record where
  Time : time.Time
  Level : Level
  Message : String
  Attrs : List Attr
  Groups : List String
  Source : Nilable Source

/-- Unicode control characters (Go `unicode.IsControl`). -/
def isControl (c : Char) : Bool :=
  c.toNat < 32 ∨ (127 ≤ c.toNat ∧ c.toNat < 160)

/-- Modelled from the spec: a text value is double-quoted when it holds a
space, `=` or a control character (section 4.1). -/
def needsQuote (s : String) : Bool :=
  s.data.any (fun c => c = ' ' ∨ c = '=' ∨ isControl c)

/-- Modelled from the spec: the escapes inside a quoted value (section 4.1):
quote and backslash get a backslash, a newline becomes the two characters
`\n`; the spec names no other escape. -/
def escape : List Char → List Char
  | [] => []
  | c :: rest =>
    if c = '"' then '\\' :: '"' :: escape rest
    else if c = '\\' then '\\' :: '\\' :: escape rest
    else if c = '\n' then '\\' :: 'n' :: escape rest
    else c :: escape rest

/-- Modelled from the spec: the value rule of the text variant (section 4.1,
and the round-trip law of section 8): quotes, backslashes and newlines of a
value are escaped, and the value is double-quoted when it holds a space, `=`
or a control character. -/
def quoteValue (s : String) : String :=
  if needsQuote s then String.mk (['"'] ++ escape s.data ++ ['"'])
  else String.mk (escape s.data)

/-- Modelled from the spec: the dotted key path of a key under the open
groups (section 4.1). -/
def dotted (groups : List String) (key : String) : String :=
  ".".intercalate (groups ++ [key])

mutual

/-- Modelled from the spec: the ` key=value` pairs of one attribute under the
open groups; a group is flattened into dotted key paths. -/
def Attr.text (groups : List String) : Attr → String
  | .string key value => " " ++ dotted groups key ++ "=" ++ quoteValue value
  | .int64 key value => " " ++ dotted groups key ++ "=" ++ quoteValue (toString value)
  | .bool key value => " " ++ dotted groups key ++ "=" ++ quoteValue (toString value)
  | .other key text => " " ++ dotted groups key ++ "=" ++ quoteValue text
  | .group key members => Attr.texts (groups ++ [key]) members

/-- Modelled from the spec: the pairs of a sequence of attributes, in
order. -/
def Attr.texts (groups : List String) : List Attr → String
  | [] => ""
  | a :: rest => Attr.text groups a ++ Attr.texts groups rest

end

/-- Modelled from the spec: the ` source=file:line` pair, when the record has
a call site. -/
def sourceText : Nilable Source → String
  | none => ""
  | some src => " source=" ++ quoteValue (src.File ++ ":" ++ toString src.Line)

/-- Modelled from the spec: `Format` of the text variant (its source file is
missing), section 4.1: `time=... level=<NAME> msg=<msg> [source=file:line]
[attr=val ...]` and one line terminator.  The time is the record's time in
the formatter's zone, rendered by `formatTime` after the formatter's layout;
like every value of the line it goes through the value rule, so a rendering
with a space (the default `datetime`) is double-quoted and no layout can put
a line break into the line.  The result is the bytes and no error: the spec
names no failure of the text variant. -/
def TextFormatter.Format (unixfloat : time.Time → String) (f : TextFormatter)
    (r : Record) : Except String String :=
  .ok ("time="
    ++ quoteValue (formatTime unixfloat (r.Time.In f.opts.Location) f.opts.TimeFormat)
    ++ " level=" ++ r.Level.String
    ++ " msg=" ++ quoteValue r.Message
    ++ sourceText r.Source
    ++ Attr.texts r.Groups r.Attrs
    ++ "\n")

/-! ### Fixtures of `formatter_test.go` -/

/-- Source `testTime`: `time.Date(2024, 1, 15, 10, 30, 45, 0, time.UTC)`. -/
def testTime : time.Time :=
  { unix := 1705314645, nsec := 0, zone := "UTC", offset := 0 }

/-- Source `newTestRecord` (without attributes: `newTestRecord(msg)`). -/
def newTestRecord (msg : String) : Record :=
  { Time := testTime, Level := .LevelInfo, Message := msg, Attrs := [], Groups := [],
    Source := none }

/-- The time `tm` of `TestFormatTime`:
`time.Date(2024, 1, 15, 10, 30, 45, 123000000, time.UTC)`. -/
def tm : time.Time :=
  { unix := 1705314645, nsec := 123000000, zone := "UTC", offset := 0 }

/-- The zone `Asia/Shanghai`, eight hours east of UTC. -/
def shanghai : time.Location :=
  { name := "Asia/Shanghai", lookup := fun _ => ("CST", 28800) }

/-- A process for the examples: its local zone is eight hours east of UTC and
its zone database resolves `Asia/Shanghai` alone. -/
def testZones : time.Zoneinfo :=
  { Local := { name := "Local", lookup := fun _ => ("CST", 28800) }
    LoadLocation := fun tz => if tz = "Asia/Shanghai" then some shanghai else none
    named := by
      intro tz loc h
      by_cases hz : tz = "Asia/Shanghai"
      · simp only [hz, if_true, Option.some.injEq] at h
        rw [← h, hz]
        rfl
      · simp [hz] at h }

/-- A rendering of `unixfloat` for the examples: seconds, a dot, and the nine
digits of the nanoseconds. -/
def testUnixfloat (t : time.Time) : String :=
  toString t.Unix ++ "." ++ String.mk (time.appendInt t.Nanosecond 9)

/-- Two decimal digits of a number below 100, the `HH`, `MM`, `SS`, `DD` of
the layout table. -/
def dd (n : Nat) : List Char :=
  [Char.ofNat (48 + n / 10 % 10), Char.ofNat (48 + n % 10)]

/-- Three decimal digits of a number below 1000, the `mmm` of the layout
table. -/
def ddd (n : Nat) : List Char :=
  [Char.ofNat (48 + n / 100 % 10), Char.ofNat (48 + n / 10 % 10), Char.ofNat (48 + n % 10)]

/-- The year `YYYY` of the layout table: at least four digits, after a minus
sign for a year before year 0. -/
def yyyy (y : Int) : List Char := time.appendInt y 4

end formatter

/-! ## `pkg/logger` -/

namespace logger

/-- The fields of `Config` that the composite literals of `env.go` and
`init_env.go` set; a field a literal leaves out has its zero value. -/
structure Config where
  Level : String
  Format : String
  Output : String
  AddSource : Bool
  TimeFormat : String
  Timezone : String
deriving DecidableEq, Repr

/-- Source `getEnv` (identical in `env.go` and `init_env.go`). -/
def getEnv (env : os.Environ) (key defaultValue : String) : String :=
  if os.Getenv env key ≠ "" then os.Getenv env key else defaultValue

/-- Source `getEnvBool` (identical in `env.go` and `init_env.go`). -/
def getEnvBool (lowerRune : Char → Char) (env : os.Environ) (key : String)
    (defaultValue : Bool) : Bool :=
  let value := os.Getenv env key
  if value = "" then defaultValue
  else strings.ToLower lowerRune value == "true" || value == "1"

/-- Source `isSandboxEnv` of `init_env.go`. -/
def isSandboxEnv (lowerRune : Char → Char) (env : os.Environ) : Bool :=
  let value := os.Getenv env "IS_SANDBOX"
  value == "1" || strings.ToLower lowerRune value == "true"

/-- Source `EnvConfig` of `init_env.go`. -/
def EnvConfig (lowerRune : Char → Char) (env : os.Environ) : Config :=
  let isSandbox := isSandboxEnv lowerRune env
  let (defaultLevel, defaultFormat, defaultAddSource, defaultTimeFormat) :=
    if isSandbox then ("DEBUG", "color", true, "time")
    else ("INFO", "json", false, "datetime")
  { Level := getEnv env "LOG_LEVEL" defaultLevel
    Format := getEnv env "LOG_FORMAT" defaultFormat
    Output := getEnv env "LOG_OUTPUT" "stdout"
    AddSource := getEnvBool lowerRune env "LOG_ADD_SOURCE" defaultAddSource
    TimeFormat := getEnv env "LOG_TIME_FORMAT" defaultTimeFormat
    Timezone := "Asia/Shanghai" }

/-- The config literal `cfg` that `InitFromEnv` of `env.go` builds. -/
def InitFromEnv.cfg (lowerRune : Char → Char) (env : os.Environ) : Config :=
  { Level := getEnv env "LOG_LEVEL" "INFO"
    Format := getEnv env "LOG_FORMAT" "color"
    Output := getEnv env "LOG_OUTPUT" "stdout"
    AddSource := getEnvBool lowerRune env "LOG_ADD_SOURCE" true
    TimeFormat := getEnv env "LOG_TIME_FORMAT" "datetime"
    Timezone := "" }

/-- Source `InitFromEnv` of `env.go`.  `Init` is declared in another file of
the package: it is a parameter, a function from a config and the global logger
state `σ` to an error (nil when it succeeds) and the new state. -/
def InitFromEnv {σ ε : Type} (Init : Config → σ → Nilable ε × σ)
    (lowerRune : Char → Char) (env : os.Environ) (s : σ) : Nilable ε × σ :=
  Init (InitFromEnv.cfg lowerRune env) s

end logger

/-! ## `pkg/logm`: presets -/

namespace writer

/-- The writers the presets name; only `writer.Stdout()` occurs. -/
inductive Writer where
  | Stdout
deriving DecidableEq, Repr

end writer

namespace logm

/-- Interface `Formatter`: one of the three formatter values. -/
inductive Formatter where
  | json (f : formatter.JSONFormatter)
  | text (f : formatter.TextFormatter)
  | color (f : formatter.ColorFormatter)

/-- Functional option of the logger.  The `With...` constructors are declared
in another file of the package, so an option is the record of the constructor
call that made it. -/
inductive Option where
  | WithLevel (level : String)
  | WithFormatter (f : Formatter)
  | WithWriter (w : writer.Writer)
  | WithAddSource (enable : Bool)
  | WithTimeFormat (format : String)
  | WithTimezone (tz : String)
  | WithOutput (output : String)


/-- Source `Development`. -/
def Development (zi : time.Zoneinfo) : List Option :=
  [ .WithLevel "DEBUG",
    .WithFormatter (.color (formatter.Color zi [formatter.WithTimeFormat "time"])),
    .WithWriter writer.Writer.Stdout,
    .WithAddSource true,
    .WithTimeFormat "time",
    .WithTimezone "Asia/Shanghai" ]


/-- Source `Production`. -/
def Production (zi : time.Zoneinfo) : List Option :=
  [ .WithLevel "INFO",
    .WithFormatter (.json (formatter.JSON zi [formatter.WithTimeFormat "rfc3339ms"])),
    .WithWriter writer.Writer.Stdout,
    .WithAddSource false,
    .WithTimeFormat "rfc3339ms",
    .WithTimezone "UTC" ]

/-- Source `isSandboxEnv` of `preset.go`. -/
def isSandboxEnv (lowerRune : Char → Char) (env : os.Environ) : Bool :=
  let value := os.Getenv env "IS_SANDBOX"
  value == "1" || strings.ToLower lowerRune value == "true"

/-- The `switch strings.ToLower(format)` of `FromEnv`: the formatter picked for
a `LOG_FORMAT` value, nil when no case matches. -/
def FromEnv.formatterFor (lowerRune : Char → Char) (zi : time.Zoneinfo)
    (format : String) : Nilable Formatter :=
  let lowered := strings.ToLower lowerRune format
  if lowered = "json" then some (.json (formatter.JSON zi []))
  else if lowered = "text" then some (.text (formatter.Text zi []))
  else if lowered = "color" ∨ lowered = "colored" then some (.color (formatter.Color zi []))
  else none


/-- Source `FromEnv`: the preset, then one `append` per overriding variable. -/
def FromEnv (lowerRune : Char → Char) (zi : time.Zoneinfo) (env : os.Environ) :
    List Option :=
  let isSandbox := isSandboxEnv lowerRune env
  let opts := if isSandbox then Development zi else Production zi
  let level := os.Getenv env "LOG_LEVEL"
  let opts := if level ≠ "" then opts ++ [.WithLevel level] else opts
  let format := os.Getenv env "LOG_FORMAT"
  let opts :=
    if format ≠ "" then
      match FromEnv.formatterFor lowerRune zi format with
      | some f => opts ++ [.WithFormatter f]
      | none => opts
    else opts
  let output := os.Getenv env "LOG_OUTPUT"
  let opts := if output ≠ "" then opts ++ [.WithOutput output] else opts
  let addSource := os.Getenv env "LOG_ADD_SOURCE"
  let opts :=
    if addSource ≠ "" then
      opts ++ [.WithAddSource (strings.ToLower lowerRune addSource == "true" || addSource == "1")]
    else opts
  let timeFormat := os.Getenv env "LOG_TIME_FORMAT"
  let opts := if timeFormat ≠ "" then opts ++ [.WithTimeFormat timeFormat] else opts
  opts

end logm

/-! ## Theorems: `pkg/logger` -/

/-- `os.Getenv` of a variable that is not set is empty. -/
theorem os.Getenv_unset (env : os.Environ) (key : String) (h : env key = none) :
    os.Getenv env key = "" := by
  simp [os.Getenv, h]

/-- `getEnv` is the value when it is non-empty and the default otherwise. -/
theorem logger.getEnv_empty (env : os.Environ) (key d : String)
    (h : os.Getenv env key = "") : logger.getEnv env key d = d := by
  simp [logger.getEnv, h]

/-- `getEnvBool` of an empty value is the default. -/
theorem logger.getEnvBool_empty (lowerRune : Char → Char) (env : os.Environ)
    (key : String) (d : Bool) (h : os.Getenv env key = "") :
    logger.getEnvBool lowerRune env key d = d := by
  simp [logger.getEnvBool, h]

/-- C1. For every environment `EnvConfig` is the config chosen by `IS_SANDBOX`
(the value `1`, or `true` in any letter case) with each field overridden by
its non-empty `LOG_*` variable: DEBUG / color / AddSource default true / time
in the sandbox, INFO / json / AddSource default false / datetime otherwise,
Output default stdout and Timezone `Asia/Shanghai` in both. -/
theorem logger.EnvConfig_spec (lowerRune : Char → Char) (env : os.Environ) :
    logger.EnvConfig lowerRune env =
      if os.Getenv env "IS_SANDBOX" = "1"
          ∨ strings.ToLower lowerRune (os.Getenv env "IS_SANDBOX") = "true" then
        { Level := if os.Getenv env "LOG_LEVEL" ≠ "" then os.Getenv env "LOG_LEVEL" else "DEBUG"
          Format :=
            if os.Getenv env "LOG_FORMAT" ≠ "" then os.Getenv env "LOG_FORMAT" else "color"
          Output :=
            if os.Getenv env "LOG_OUTPUT" ≠ "" then os.Getenv env "LOG_OUTPUT" else "stdout"
          AddSource := logger.getEnvBool lowerRune env "LOG_ADD_SOURCE" true
          TimeFormat :=
            if os.Getenv env "LOG_TIME_FORMAT" ≠ "" then os.Getenv env "LOG_TIME_FORMAT"
            else "time"
          Timezone := "Asia/Shanghai" }
      else
        { Level := if os.Getenv env "LOG_LEVEL" ≠ "" then os.Getenv env "LOG_LEVEL" else "INFO"
          Format :=
            if os.Getenv env "LOG_FORMAT" ≠ "" then os.Getenv env "LOG_FORMAT" else "json"
          Output :=
            if os.Getenv env "LOG_OUTPUT" ≠ "" then os.Getenv env "LOG_OUTPUT" else "stdout"
          AddSource := logger.getEnvBool lowerRune env "LOG_ADD_SOURCE" false
          TimeFormat :=
            if os.Getenv env "LOG_TIME_FORMAT" ≠ "" then os.Getenv env "LOG_TIME_FORMAT"
            else "datetime"
          Timezone := "Asia/Shanghai" } := by
  by_cases h : os.Getenv env "IS_SANDBOX" = "1"
      ∨ strings.ToLower lowerRune (os.Getenv env "IS_SANDBOX") = "true"
  · have hs : logger.isSandboxEnv lowerRune env = true := by
      simpa [logger.isSandboxEnv] using h
    simp [logger.EnvConfig, logger.getEnv, hs, h]
  · have hs : logger.isSandboxEnv lowerRune env = false := by
      simpa [logger.isSandboxEnv] using h
    simp [logger.EnvConfig, logger.getEnv, hs, h]

/-- C3. `InitFromEnv` returns (error and logger state) exactly what `Init`
returns for the config it built, in every environment; and when none of
LOG_LEVEL, LOG_FORMAT, LOG_OUTPUT, LOG_ADD_SOURCE, LOG_TIME_FORMAT is set that
config is INFO / color / stdout / AddSource true / datetime. -/
theorem logger.InitFromEnv_spec {σ ε : Type} (Init : logger.Config → σ → Nilable ε × σ)
    (lowerRune : Char → Char) (env : os.Environ) (s : σ) :
    logger.InitFromEnv Init lowerRune env s = Init (logger.InitFromEnv.cfg lowerRune env) s
    ∧ (env "LOG_LEVEL" = none → env "LOG_FORMAT" = none → env "LOG_OUTPUT" = none →
        env "LOG_ADD_SOURCE" = none → env "LOG_TIME_FORMAT" = none →
        logger.InitFromEnv Init lowerRune env s =
          Init { Level := "INFO", Format := "color", Output := "stdout", AddSource := true,
                 TimeFormat := "datetime", Timezone := "" } s) := by
  refine ⟨rfl, ?_⟩
  intro h1 h2 h3 h4 h5
  simp [logger.InitFromEnv, logger.InitFromEnv.cfg,
    logger.getEnv_empty env _ _ (os.Getenv_unset env _ h1),
    logger.getEnv_empty env _ _ (os.Getenv_unset env _ h2),
    logger.getEnv_empty env _ _ (os.Getenv_unset env _ h3),
    logger.getEnvBool_empty lowerRune env _ _ (os.Getenv_unset env _ h4),
    logger.getEnv_empty env _ _ (os.Getenv_unset env _ h5)]

/-- C3 at a concrete input: the empty environment, with an `Init` that
records the config it is given and reports no error. -/
theorem logger.InitFromEnv_spec_witness :
    logger.InitFromEnv (fun c (s : List logger.Config) => ((none : Nilable String), c :: s))
        id (fun _ => none) []
      = (none, [{ Level := "INFO", Format := "color", Output := "stdout", AddSource := true,
                  TimeFormat := "datetime", Timezone := "" }]) :=
  (logger.InitFromEnv_spec (fun c (s : List logger.Config) => ((none : Nilable String), c :: s))
    id (fun _ => none) []).2 rfl rfl rfl rfl rfl

/-! ## Theorems: `pkg/logm` presets -/

/-- Lowering the empty string gives the empty string. -/
theorem strings.ToLower_empty (lowerRune : Char → Char) :
    strings.ToLower lowerRune "" = "" := rfl

/-- The formatter switch, as the list of options it contributes: the value is
recognised by its lowered text alone (an empty value is not recognised). -/
theorem logm.FromEnv.formatterFor_options (lowerRune : Char → Char) (zi : time.Zoneinfo)
    (format : String) :
    (if format ≠ "" then
        match logm.FromEnv.formatterFor lowerRune zi format with
        | some f => [logm.Option.WithFormatter f]
        | none => []
      else [])
    = if strings.ToLower lowerRune format = "json" then
        [.WithFormatter (.json (formatter.JSON zi []))]
      else if strings.ToLower lowerRune format = "text" then
        [.WithFormatter (.text (formatter.Text zi []))]
      else if strings.ToLower lowerRune format = "color"
          ∨ strings.ToLower lowerRune format = "colored" then
        [.WithFormatter (.color (formatter.Color zi []))]
      else [] := by
  by_cases hf : format = ""
  · subst hf
    simp [strings.ToLower_empty]
  · simp only [logm.FromEnv.formatterFor, ne_eq, hf, not_false_eq_true, if_true]
    split_ifs <;> rfl

/-- C2. For every environment the option list of `FromEnv` is the preset
(`Development` when IS_SANDBOX is `1` or `true` in any letter case, else
`Production`) followed, in the order LOG_LEVEL, LOG_FORMAT, LOG_OUTPUT,
LOG_ADD_SOURCE, LOG_TIME_FORMAT, by one option for each variable that is
non-empty (for LOG_FORMAT: whose lowered value is json, text, color or
colored) and none for the others; its length is 6 plus that count. -/
theorem logm.FromEnv_spec (lowerRune : Char → Char) (zi : time.Zoneinfo)
    (env : os.Environ) :
    logm.FromEnv lowerRune zi env =
      (if os.Getenv env "IS_SANDBOX" = "1"
          ∨ strings.ToLower lowerRune (os.Getenv env "IS_SANDBOX") = "true"
        then logm.Development zi else logm.Production zi)
      ++ (if os.Getenv env "LOG_LEVEL" ≠ "" then [.WithLevel (os.Getenv env "LOG_LEVEL")]
          else [])
      ++ (if strings.ToLower lowerRune (os.Getenv env "LOG_FORMAT") = "json" then
            [.WithFormatter (.json (formatter.JSON zi []))]
          else if strings.ToLower lowerRune (os.Getenv env "LOG_FORMAT") = "text" then
            [.WithFormatter (.text (formatter.Text zi []))]
          else if strings.ToLower lowerRune (os.Getenv env "LOG_FORMAT") = "color"
              ∨ strings.ToLower lowerRune (os.Getenv env "LOG_FORMAT") = "colored" then
            [.WithFormatter (.color (formatter.Color zi []))]
          else [])
      ++ (if os.Getenv env "LOG_OUTPUT" ≠ "" then [.WithOutput (os.Getenv env "LOG_OUTPUT")]
          else [])
      ++ (if os.Getenv env "LOG_ADD_SOURCE" ≠ "" then
            [.WithAddSource
              (decide (strings.ToLower lowerRune (os.Getenv env "LOG_ADD_SOURCE") = "true"
                ∨ os.Getenv env "LOG_ADD_SOURCE" = "1"))]
          else [])
      ++ (if os.Getenv env "LOG_TIME_FORMAT" ≠ "" then
            [.WithTimeFormat (os.Getenv env "LOG_TIME_FORMAT")]
          else [])
    ∧ (logm.FromEnv lowerRune zi env).length =
        6 + (if os.Getenv env "LOG_LEVEL" ≠ "" then 1 else 0)
          + (if os.Getenv env "LOG_FORMAT" ≠ ""
                ∧ strings.ToLower lowerRune (os.Getenv env "LOG_FORMAT")
                    ∈ ["json", "text", "color", "colored"] then 1 else 0)
          + (if os.Getenv env "LOG_OUTPUT" ≠ "" then 1 else 0)
          + (if os.Getenv env "LOG_ADD_SOURCE" ≠ "" then 1 else 0)
          + (if os.Getenv env "LOG_TIME_FORMAT" ≠ "" then 1 else 0) := by
  have hpre : (if logm.isSandboxEnv lowerRune env = true then logm.Development zi
        else logm.Production zi)
      = (if os.Getenv env "IS_SANDBOX" = "1"
          ∨ strings.ToLower lowerRune (os.Getenv env "IS_SANDBOX") = "true"
        then logm.Development zi else logm.Production zi) := by
    simp [logm.isSandboxEnv]
  have hlen : ∀ b : Prop, ∀ [Decidable b],
      (if b then logm.Development zi else logm.Production zi).length = 6 := by
    intro b _
    split_ifs <;> rfl
  refine (fun hlist => ⟨hlist, ?_⟩) ?_
  · have hb : (strings.ToLower lowerRune (os.Getenv env "LOG_ADD_SOURCE") == "true"
          || os.Getenv env "LOG_ADD_SOURCE" == "1")
        = decide (strings.ToLower lowerRune (os.Getenv env "LOG_ADD_SOURCE") = "true"
            ∨ os.Getenv env "LOG_ADD_SOURCE" = "1") := by
      rw [Bool.eq_iff_iff]
      simp
    rw [← logm.FromEnv.formatterFor_options lowerRune zi (os.Getenv env "LOG_FORMAT"), ← hpre]
    simp only [logm.FromEnv, hb]
    by_cases h1 : os.Getenv env "LOG_LEVEL" = "" <;>
    by_cases h2 : os.Getenv env "LOG_FORMAT" = "" <;>
    by_cases h3 : os.Getenv env "LOG_OUTPUT" = "" <;>
    by_cases h4 : os.Getenv env "LOG_ADD_SOURCE" = "" <;>
    by_cases h5 : os.Getenv env "LOG_TIME_FORMAT" = "" <;>
    simp only [h1, h2, h3, h4, h5, ne_eq, not_true_eq_false, not_false_eq_true, if_true,
      if_false, List.append_nil, List.append_assoc] <;>
    cases logm.FromEnv.formatterFor lowerRune zi (os.Getenv env "LOG_FORMAT") <;>
    simp only [List.append_nil, List.nil_append, List.append_assoc]
  · rw [hlist]
    simp only [List.length_append, hlen, List.mem_cons, List.mem_singleton, List.not_mem_nil,
      or_false]
    by_cases h2 : os.Getenv env "LOG_FORMAT" = ""
    · simp [h2, strings.ToLower_empty]
      split_ifs <;> simp
    · simp only [ne_eq, h2, not_false_eq_true, true_and]
      split_ifs <;> simp_all

/-! ## Theorems: `pkg/logm/formatter` -/

/-- C5. For every timezone string `loadTimezone` returns a location, never an
error: the process local zone when the string is empty or not resolvable, the
zone named by it when it is `UTC` or a name the IANA database resolves. -/
theorem formatter.loadTimezone_spec (zi : time.Zoneinfo) (tz : String) :
    (tz = "" → formatter.loadTimezone zi tz = zi.Local)
    ∧ (tz ≠ "UTC" → zi.LoadLocation tz = none → formatter.loadTimezone zi tz = zi.Local)
    ∧ (tz = "UTC" → formatter.loadTimezone zi tz = time.UTC)
    ∧ (∀ loc, tz ≠ "" → tz ≠ "UTC" → zi.LoadLocation tz = some loc →
        formatter.loadTimezone zi tz = loc)
    ∧ (tz = "UTC" ∨ (tz ≠ "" ∧ zi.LoadLocation tz ≠ none) →
        (formatter.loadTimezone zi tz).name = tz)
    ∧ (formatter.loadTimezone zi tz = zi.Local ∨ formatter.loadTimezone zi tz = time.UTC
        ∨ zi.LoadLocation tz = some (formatter.loadTimezone zi tz)) := by
  unfold formatter.loadTimezone
  by_cases h0 : tz = ""
  · subst h0
    simp
  · by_cases hu : tz = "UTC"
    · subst hu
      simp [time.UTC]
    · cases hl : zi.LoadLocation tz with
      | none => simp [h0, hu]
      | some loc => simp [h0, hu, zi.named tz loc hl]

/-! ### Calendar fields stay in range -/

/-- The date of some day counts: the epoch, the day before it, leap days, and
the first days of the years 0 and 1. -/
theorem time.civil_examples :
    time.civil 0 = (1970, 1, 1) ∧ time.civil (-1) = (1969, 12, 31)
    ∧ time.civil 19737 = (2024, 1, 15) ∧ time.civil 19782 = (2024, 2, 29)
    ∧ time.civil 11016 = (2000, 2, 29) ∧ time.civil 47540 = (2100, 2, 28)
    ∧ time.civil 47541 = (2100, 3, 1) ∧ time.civil (-719528) = (0, 1, 1)
    ∧ time.civil (-719162) = (1, 1, 1) := by
  decide


/-- The hour is below 24. -/
theorem time.Time.Hour_lt (t : time.Time) : t.Hour < 24 := by
  unfold time.Time.Hour time.Time.secondOfDay
  omega

/-- The minute is below 60. -/
theorem time.Time.Minute_lt (t : time.Time) : t.Minute < 60 := by
  unfold time.Time.Minute
  omega

/-- The second is below 60. -/
theorem time.Time.Second_lt (t : time.Time) : t.Second < 60 := by
  unfold time.Time.Second
  omega

/-- The month is one of 1..12. -/
theorem time.Time.Month_range (t : time.Time) : 1 ≤ t.Month ∧ t.Month ≤ 12 := by
  unfold time.Time.Month time.civil
  simp only
  split_ifs <;> omega

/-- The day of the month is one of 1..31. -/
theorem time.Time.Day_range (t : time.Time) : 1 ≤ t.Day ∧ t.Day ≤ 31 := by
  unfold time.Time.Day time.civil
  simp only
  omega

/-- The milliseconds of the second are below 1000. -/
theorem time.Time.milli_lt (t : time.Time) : t.Nanosecond / 1000000 < 1000 := by
  have h := t.nsec.isLt
  unfold time.Time.Nanosecond
  omega

set_option maxRecDepth 100000 in
/-- Zero-padding to width 2 of a number below 100 is its two digits. -/
theorem time.appendInt_two :
    ∀ n, n < 100 → time.appendInt ((n : Nat) : Int) 2 = formatter.dd n := by
  decide

set_option maxRecDepth 100000 in
/-- Zero-padding to width 3 of a number below 1000 is its three digits. -/
theorem time.appendInt_three :
    ∀ n, n < 1000 → time.appendInt ((n : Nat) : Int) 3 = formatter.ddd n := by
  decide

/-! ### Decimal digits -/

/-- The digits already produced stay behind the ones `toDigitsCore` adds. -/
theorem time.toDigitsCore_append (fuel : Nat) : ∀ (n : Nat) (ds : List Char),
    Nat.toDigitsCore 10 fuel n ds = Nat.toDigitsCore 10 fuel n [] ++ ds := by
  induction fuel with
  | zero => intro n ds; simp [Nat.toDigitsCore]
  | succ f ih =>
    intro n ds
    simp only [Nat.toDigitsCore]
    split_ifs with h
    · simp
    · rw [ih (n / 10) (_ :: ds), ih (n / 10) [_]]
      simp

/-- Any fuel above the number gives the same digits. -/
theorem time.toDigitsCore_fuel (f1 : Nat) : ∀ (f2 n : Nat), n < f1 → n < f2 →
    Nat.toDigitsCore 10 f1 n [] = Nat.toDigitsCore 10 f2 n [] := by
  induction f1 with
  | zero => intro f2 n h; omega
  | succ f ih =>
    intro f2 n h1 h2
    obtain ⟨g, rfl⟩ : ∃ g, f2 = g + 1 := ⟨f2 - 1, by omega⟩
    simp only [Nat.toDigitsCore]
    split_ifs with h
    · rfl
    · rw [time.toDigitsCore_append f, time.toDigitsCore_append g,
        ih g (n / 10) (by omega) (by omega)]

/-- The digits of a number with at least two digits: those of its tenth, then
its last digit. -/
theorem time.toDigits_step (n : Nat) (h : 10 ≤ n) :
    Nat.toDigits 10 n = Nat.toDigits 10 (n / 10) ++ [Nat.digitChar (n % 10)] := by
  unfold Nat.toDigits
  rw [Nat.toDigitsCore]
  have h0 : ¬ n / 10 = 0 := by omega
  simp only [h0, if_false]
  rw [time.toDigitsCore_append,
    time.toDigitsCore_fuel n (n / 10 + 1) (n / 10) (by omega) (by omega)]

/-- The digits of a number below ten: its one digit. -/
theorem time.toDigits_small (n : Nat) (h : n < 10) :
    Nat.toDigits 10 n = [Nat.digitChar n] := by
  unfold Nat.toDigits
  rw [Nat.toDigitsCore]
  have h0 : n / 10 = 0 := by omega
  have hm : n % 10 = n := by omega
  simp [h0, hm]

/-- There are `k` fixed digits. -/
theorem time.fixedDigits_length (k : Nat) : ∀ n, (time.fixedDigits k n).length = k := by
  induction k with
  | zero => intro n; rfl
  | succ k ih => intro n; simp [time.fixedDigits, ih]

/-- Zero-padding a number that fits the width gives its fixed digits. -/
theorem time.appendInt_fixed (k : Nat) : ∀ n : Nat, n < 10 ^ (k + 1) →
    time.appendInt (n : Int) (k + 1) = time.fixedDigits (k + 1) n := by
  have key : ∀ k : Nat, ∀ n : Nat, n < 10 ^ (k + 1) →
      List.replicate (k + 1 - (Nat.toDigits 10 n).length) '0' ++ Nat.toDigits 10 n
        = time.fixedDigits (k + 1) n := by
    intro k
    induction k with
    | zero =>
      intro n h
      have h10 : n < 10 := by simpa using h
      simp [time.toDigits_small n h10, time.fixedDigits, Nat.mod_eq_of_lt h10]
    | succ k ih =>
      intro n h
      by_cases h10 : n < 10
      · have hz : n / 10 = 0 := by omega
        have hm : n % 10 = n := by omega
        have := ih 0 (by positivity)
        rw [time.fixedDigits, hz, ← this, time.toDigits_small n h10,
          time.toDigits_small 0 (by decide), hm]
        simp only [List.length_singleton, Nat.add_sub_cancel]
        rw [List.replicate_succ']
        rfl
      · have hlt : n / 10 < 10 ^ (k + 1) := by
          rw [pow_succ] at h
          omega
        rw [time.fixedDigits, ← ih (n / 10) hlt, time.toDigits_step n (by omega)]
        simp only [List.length_append, List.length_singleton, List.append_assoc]
        congr 2
        omega
  intro n h
  have hneg : ¬ ((n : Int) < 0) := by omega
  simp only [time.appendInt, hneg, if_false, Int.natAbs_ofNat, List.nil_append]
  exact key k n h

/-- The fixed digits of a number split at any position. -/
theorem time.fixedDigits_split (a : Nat) : ∀ (b n : Nat),
    time.fixedDigits (a + b) n = time.fixedDigits a (n / 10 ^ b) ++ time.fixedDigits b n := by
  intro b
  induction b with
  | zero => intro n; simp [time.fixedDigits]
  | succ b ih =>
    intro n
    rw [← Nat.add_assoc, time.fixedDigits, time.fixedDigits, ih (n / 10),
      Nat.div_div_eq_div_mul, pow_succ, Nat.mul_comm (10 ^ b) 10]
    simp

/-- The layout element `.000` writes a dot and the milliseconds in three
digits. -/
theorem time.appendNano_milli (nanosec : Nat) (h : nanosec < 1000000000) :
    time.appendNano nanosec false 3 '.'
      = '.' :: time.appendInt ((nanosec / 1000000 : Nat) : Int) 3 := by
  have h9 : time.appendInt (nanosec : Int) 9 = time.fixedDigits 9 nanosec :=
    time.appendInt_fixed 8 nanosec (by norm_num; exact h)
  have h3 : time.appendInt ((nanosec / 1000000 : Nat) : Int) 3
      = time.fixedDigits 3 (nanosec / 1000000) :=
    time.appendInt_fixed 2 (nanosec / 1000000) (by norm_num; omega)
  have hs : time.fixedDigits 9 nanosec
      = time.fixedDigits 3 (nanosec / 1000000) ++ time.fixedDigits 6 nanosec := by
    have := time.fixedDigits_split 3 6 nanosec
    norm_num at this
    exact this
  have hl := time.fixedDigits_length 3 (nanosec / 1000000)
  simp only [time.appendNano, Bool.false_eq_true, false_and, if_false]
  rw [h9, h3, hs, List.take_left' hl]

/-- The clock text is `HH:MM:SS` in digits. -/
theorem formatter.clockText_digits (t : time.Time) :
    formatter.clockText t
      = formatter.dd t.Hour ++ [':'] ++ formatter.dd t.Minute ++ [':']
          ++ formatter.dd t.Second := by
  unfold formatter.clockText
  rw [time.appendInt_two _ (lt_trans t.Hour_lt (by decide)),
    time.appendInt_two _ (lt_trans t.Minute_lt (by decide)),
    time.appendInt_two _ (lt_trans t.Second_lt (by decide))]

/-- The date text is `YYYY-MM-DD` in digits. -/
theorem formatter.dateText_digits (t : time.Time) :
    formatter.dateText t
      = formatter.yyyy t.Year ++ ['-'] ++ formatter.dd t.Month ++ ['-']
          ++ formatter.dd t.Day := by
  unfold formatter.dateText formatter.yyyy
  rw [time.appendInt_two _ (lt_of_le_of_lt t.Month_range.2 (by decide)),
    time.appendInt_two _ (lt_of_le_of_lt t.Day_range.2 (by decide))]

/-- The millisecond text is `mmm` in digits. -/
theorem formatter.milliText_digits (t : time.Time) :
    formatter.milliText t = formatter.ddd (t.Nanosecond / 1000000) := by
  unfold formatter.milliText
  exact time.appendInt_three _ t.milli_lt

/-- The zone text is `Z` at offset zero and the numeric offset otherwise. -/
theorem formatter.zoneText_cases (t : time.Time) :
    formatter.zoneText t
      = if t.offset = 0 then ['Z'] else time.appendZone t.offset false true true false := by
  unfold formatter.zoneText time.appendZone
  by_cases h : t.offset = 0 <;> simp [h]

/-! ### The layouts behind the named selectors -/

/-- Selector `time` is the layout `15:04:05`. -/
theorem formatter.formatTime_time_layout (u : time.Time → String) (t : time.Time) :
    formatter.formatTime u t "time" = t.Format "15:04:05" := by
  simp [formatter.formatTime, formatter.clockText, time.Time.Format, time.Time.appendFormat,
    time.chunkAt, time.hasPre, time.Time.chunk, time.std0x]

/-- Selector `datetime` is the layout `2006-01-02 15:04:05`. -/
theorem formatter.formatTime_datetime_layout (u : time.Time → String) (t : time.Time) :
    formatter.formatTime u t "datetime" = t.Format "2006-01-02 15:04:05" := by
  simp [formatter.formatTime, formatter.clockText, formatter.dateText, time.Time.Format,
    time.Time.appendFormat, time.chunkAt, time.hasPre, time.Time.chunk, time.std0x]

/-- Selector `rfc3339` is the layout `2006-01-02T15:04:05Z07:00` (Go
`time.RFC3339`). -/
theorem formatter.formatTime_rfc3339_layout (u : time.Time → String) (t : time.Time) :
    formatter.formatTime u t "rfc3339" = t.Format "2006-01-02T15:04:05Z07:00" := by
  simp [formatter.formatTime, formatter.clockText, formatter.dateText, formatter.zoneText,
    time.Time.Format, time.Time.appendFormat, time.chunkAt, time.hasPre, time.Time.chunk,
    time.std0x]

/-- Selector `timems` is the layout `15:04:05.000`. -/
theorem formatter.formatTime_timems_layout (u : time.Time → String) (t : time.Time) :
    formatter.formatTime u t "timems" = t.Format "15:04:05.000" := by
  have hn := time.appendNano_milli t.Nanosecond t.nsec.isLt
  simp [formatter.formatTime, formatter.clockText, formatter.milliText, time.Time.Format,
    time.Time.appendFormat, time.chunkAt, time.hasPre, time.Time.chunk, time.std0x,
    time.isDigit, hn]

/-- Selector `rfc3339ms` is the layout `2006-01-02T15:04:05.000Z07:00`. -/
theorem formatter.formatTime_rfc3339ms_layout (u : time.Time → String) (t : time.Time) :
    formatter.formatTime u t "rfc3339ms" = t.Format "2006-01-02T15:04:05.000Z07:00" := by
  have hn := time.appendNano_milli t.Nanosecond t.nsec.isLt
  simp [formatter.formatTime, formatter.clockText, formatter.dateText, formatter.milliText,
    formatter.zoneText, time.Time.Format, time.Time.appendFormat, time.chunkAt, time.hasPre,
    time.Time.chunk, time.std0x, time.isDigit, hn]

/-- Table `TestFormatTime` of `formatter_test.go`, row by row. -/
theorem formatter.TestFormatTime :
    formatter.formatTime formatter.testUnixfloat formatter.tm "time" = "10:30:45"
    ∧ formatter.formatTime formatter.testUnixfloat formatter.tm "timems" = "10:30:45.123"
    ∧ formatter.formatTime formatter.testUnixfloat formatter.tm "datetime"
        = "2024-01-15 10:30:45"
    ∧ formatter.formatTime formatter.testUnixfloat formatter.tm "rfc3339"
        = "2024-01-15T10:30:45Z"
    ∧ formatter.formatTime formatter.testUnixfloat formatter.tm "" = "2024-01-15 10:30:45"
    ∧ formatter.formatTime formatter.testUnixfloat formatter.tm "2006/01/02" = "2024/01/15" := by
  decide

/-- Table `TestLoadTimezone` of `formatter_test.go`, row by row. -/
theorem formatter.TestLoadTimezone :
    (formatter.loadTimezone formatter.testZones "UTC").name = "UTC"
    ∧ (formatter.loadTimezone formatter.testZones "Asia/Shanghai").name = "Asia/Shanghai"
    ∧ formatter.loadTimezone formatter.testZones "" = formatter.testZones.Local
    ∧ formatter.loadTimezone formatter.testZones "Invalid/Zone" = formatter.testZones.Local :=
  ⟨rfl, rfl, rfl, rfl⟩

/-- C4, as amended. For every time `formatTime` renders by the selector table:
`time` gives HH:MM:SS, `timems` HH:MM:SS.mmm, `datetime` YYYY-MM-DD HH:MM:SS,
`rfc3339` YYYY-MM-DDTHH:MM:SS followed by Z (offset zero) or the zone offset;
the empty selector renders as `datetime`; a string that is none of the eight
selectors of the table (`time`, `timems`, `datetime`, `rfc3339`, `rfc3339ms`,
`unix`, `unixms`, `unixfloat`) nor empty is used as a custom layout, so
`2006/01/02` gives YYYY/MM/DD. -/
theorem formatter.formatTime_spec (unixfloat : time.Time → String) (t : time.Time) :
    formatter.formatTime unixfloat t "time"
      = String.mk (formatter.dd t.Hour ++ [':'] ++ formatter.dd t.Minute ++ [':']
          ++ formatter.dd t.Second)
    ∧ formatter.formatTime unixfloat t "timems"
      = String.mk (formatter.dd t.Hour ++ [':'] ++ formatter.dd t.Minute ++ [':']
          ++ formatter.dd t.Second ++ ['.'] ++ formatter.ddd (t.Nanosecond / 1000000))
    ∧ formatter.formatTime unixfloat t "datetime"
      = String.mk (formatter.yyyy t.Year ++ ['-'] ++ formatter.dd t.Month ++ ['-']
          ++ formatter.dd t.Day ++ [' '] ++ formatter.dd t.Hour ++ [':']
          ++ formatter.dd t.Minute ++ [':'] ++ formatter.dd t.Second)
    ∧ formatter.formatTime unixfloat t "rfc3339"
      = String.mk (formatter.yyyy t.Year ++ ['-'] ++ formatter.dd t.Month ++ ['-']
          ++ formatter.dd t.Day ++ ['T'] ++ formatter.dd t.Hour ++ [':']
          ++ formatter.dd t.Minute ++ [':'] ++ formatter.dd t.Second
          ++ (if t.offset = 0 then ['Z']
              else time.appendZone t.offset false true true false))
    ∧ formatter.formatTime unixfloat t "" = formatter.formatTime unixfloat t "datetime"
    ∧ (∀ s : String,
        s ∉ ["time", "timems", "datetime", "rfc3339", "rfc3339ms", "unix", "unixms",
              "unixfloat", ""] →
        formatter.formatTime unixfloat t s = t.Format s)
    ∧ formatter.formatTime unixfloat t "2006/01/02"
      = String.mk (formatter.yyyy t.Year ++ ['/'] ++ formatter.dd t.Month ++ ['/']
          ++ formatter.dd t.Day) := by
  refine ⟨?_, ?_, ?_, ?_, ?_, ?_, ?_⟩
  · simp [formatter.formatTime, formatter.clockText_digits]
  · simp [formatter.formatTime, formatter.clockText_digits, formatter.milliText_digits]
  · simp [formatter.formatTime, formatter.clockText_digits, formatter.dateText_digits]
  · simp [formatter.formatTime, formatter.clockText_digits, formatter.dateText_digits,
      formatter.zoneText_cases]
  · simp [formatter.formatTime]
  · intro s hs
    simp only [List.mem_cons, List.mem_singleton, List.not_mem_nil, or_false, not_or] at hs
    obtain ⟨h1, h2, h3, h4, h5, h6, h7, h8, h9⟩ := hs
    simp [formatter.formatTime, h1, h2, h3, h4, h5, h6, h7, h8, h9]
  · have hm := time.appendInt_two _ (lt_of_le_of_lt t.Month_range.2 (by decide))
    have hd := time.appendInt_two _ (lt_of_le_of_lt t.Day_range.2 (by decide))
    simp [formatter.formatTime, time.Time.Format, time.Time.appendFormat, time.chunkAt,
      time.hasPre, time.Time.chunk, time.std0x, formatter.yyyy, hm, hd]

/-- C4 at a concrete input: a string outside the table is a layout. -/
theorem formatter.formatTime_spec_witness :
    formatter.formatTime formatter.testUnixfloat formatter.tm "Mon Jan _2 3:04PM"
      = formatter.tm.Format "Mon Jan _2 3:04PM" :=
  (formatter.formatTime_spec formatter.testUnixfloat formatter.tm).2.2.2.2.2.1
    "Mon Jan _2 3:04PM" (by decide)

/-- C4 as first stated fails: `rfc3339ms` is a string other than `time`,
`timems`, `datetime`, `rfc3339` and the empty string, and it is not used as a
layout. -/
theorem formatter.formatTime_other_counterexample :
    "rfc3339ms" ∉ ["time", "timems", "datetime", "rfc3339", ""]
    ∧ formatter.formatTime formatter.testUnixfloat formatter.tm "rfc3339ms"
        = "2024-01-15T10:30:45.123Z"
    ∧ formatter.tm.Format "rfc3339ms" = "rfc1010109ms"
    ∧ formatter.formatTime formatter.testUnixfloat formatter.tm "rfc3339ms"
        ≠ formatter.tm.Format "rfc3339ms" := by
  decide

/-! ### The text variant -/

/-- Nothing is escaped in a text without quote, backslash and newline. -/
theorem formatter.escape_plain (l : List Char)
    (h : ∀ c ∈ l, c ≠ '"' ∧ c ≠ '\\' ∧ c ≠ '\n') : formatter.escape l = l := by
  induction l with
  | nil => rfl
  | cons c rest ih =>
    have hc := h c (List.mem_cons_self c rest)
    have hrest := ih (fun x hx => h x (List.mem_cons_of_mem c hx))
    simp [formatter.escape, hc.1, hc.2.1, hc.2.2, hrest]

/-- A text with a space needs quotes. -/
theorem formatter.needsQuote_of_space (s : String) (h : ' ' ∈ s.data) :
    formatter.needsQuote s = true := by
  unfold formatter.needsQuote
  rw [List.any_eq_true]
  exact ⟨' ', h, by simp⟩

/-- A value with a space and without quote, backslash and newline is written
between double quotes as it is. -/
theorem formatter.quoteValue_plain (s : String) (hsp : ' ' ∈ s.data)
    (h : ∀ c ∈ s.data, c ≠ '"' ∧ c ≠ '\\' ∧ c ≠ '\n') :
    formatter.quoteValue s = String.mk (['"'] ++ s.data ++ ['"']) := by
  simp only [formatter.quoteValue, formatter.needsQuote_of_space s hsp, if_true,
    formatter.escape_plain s.data h]

/-- A decimal digit is no quote, backslash or newline. -/
theorem time.digitChar_plain (d : Nat) (h : d < 10) :
    Nat.digitChar d ≠ '"' ∧ Nat.digitChar d ≠ '\\' ∧ Nat.digitChar d ≠ '\n' := by
  interval_cases d <;> decide

/-- The digits of a number hold no quote, backslash or newline. -/
theorem time.toDigits_plain (n : Nat) :
    ∀ c ∈ Nat.toDigits 10 n, c ≠ '"' ∧ c ≠ '\\' ∧ c ≠ '\n' := by
  induction n using Nat.strong_induction_on with
  | _ n ih =>
    intro c hc
    by_cases h : n < 10
    · rw [time.toDigits_small n h, List.mem_singleton] at hc
      rw [hc]
      exact time.digitChar_plain n h
    · rw [time.toDigits_step n (by omega), List.mem_append, List.mem_singleton] at hc
      rcases hc with hc | hc
      · exact ih (n / 10) (by omega) c hc
      · rw [hc]
        exact time.digitChar_plain (n % 10) (by omega)

/-- A padded number holds no quote, backslash or newline. -/
theorem time.appendInt_plain (x : Int) (width : Nat) :
    ∀ c ∈ time.appendInt x width, c ≠ '"' ∧ c ≠ '\\' ∧ c ≠ '\n' := by
  intro c hc
  simp only [time.appendInt, List.mem_append] at hc
  rcases hc with (hc | hc) | hc
  · split_ifs at hc
    · rw [List.mem_singleton] at hc
      rw [hc]
      decide
    · simp at hc
  · rw [List.eq_of_mem_replicate hc]
    decide
  · exact time.toDigits_plain _ c hc

/-- The `datetime` rendering holds a space and no quote, backslash or
newline: as a value of the text line it is double-quoted as it is. -/
theorem formatter.quoteValue_datetime (unixfloat : time.Time → String) (t : time.Time) :
    formatter.quoteValue (formatter.formatTime unixfloat t "datetime")
      = String.mk (['"'] ++ (formatter.formatTime unixfloat t "datetime").data ++ ['"']) := by
  have hd : (formatter.formatTime unixfloat t "datetime").data
      = formatter.dateText t ++ [' '] ++ formatter.clockText t := by
    simp [formatter.formatTime]
  apply formatter.quoteValue_plain
  · rw [hd]
    simp
  · intro c hc
    rw [hd] at hc
    simp only [formatter.dateText, formatter.clockText, List.mem_append, List.mem_singleton]
      at hc
    casesm* _ ∨ _
    all_goals first
      | exact time.appendInt_plain _ _ c (by assumption)
      | (subst_vars; decide)

/-- The text line of a record without call site and attributes. -/
theorem formatter.TextFormatter.Format_plain (unixfloat : time.Time → String)
    (f : formatter.TextFormatter) (r : formatter.Record)
    (hs : r.Source = none) (ha : r.Attrs = []) :
    f.Format unixfloat r
      = .ok ("time="
          ++ formatter.quoteValue
              (formatter.formatTime unixfloat (r.Time.In f.opts.Location) f.opts.TimeFormat)
          ++ " level=" ++ r.Level.String ++ " msg=" ++ formatter.quoteValue r.Message
          ++ "\n") := by
  unfold formatter.TextFormatter.Format
  rw [hs, ha]
  simp [formatter.sourceText, formatter.Attr.texts]

/-- C6, as amended. For every record with level INFO, no source, no
attributes and a message that contains a space and no double quote, backslash
or newline, the text formatter returns no error and its output is
`time=<T> level=INFO msg="<message>"` and one line terminator, the message
double-quoted because of its space, and `<T>` the record's time in the
formatter's zone rendered after the formatter's layout and written under the
same value rule; for `Text()` (local zone, layout `datetime`) the rendering
holds a space, so the line is `time="<T>" level=INFO msg="<message>"`. -/
theorem formatter.TextFormatter.Format_spec (unixfloat : time.Time → String)
    (zi : time.Zoneinfo) (opts : List formatter.Option) (r : formatter.Record)
    (hl : r.Level = .LevelInfo) (hs : r.Source = none) (ha : r.Attrs = [])
    (hsp : ' ' ∈ r.Message.data)
    (hplain : ∀ c ∈ r.Message.data, c ≠ '"' ∧ c ≠ '\\' ∧ c ≠ '\n') :
    (formatter.Text zi opts).Format unixfloat r
      = .ok ("time="
          ++ formatter.quoteValue (formatter.formatTime unixfloat
              (r.Time.In (formatter.newOptions zi opts).Location)
              (formatter.newOptions zi opts).TimeFormat)
          ++ " level=INFO msg=\"" ++ r.Message ++ "\"\n")
    ∧ (formatter.Text zi []).Format unixfloat r
      = .ok ("time=\"" ++ formatter.formatTime unixfloat (r.Time.In zi.Local) "datetime"
          ++ "\" level=INFO msg=\"" ++ r.Message ++ "\"\n") := by
  have hgen : ∀ os : List formatter.Option,
      (formatter.Text zi os).Format unixfloat r
        = .ok ("time="
            ++ formatter.quoteValue (formatter.formatTime unixfloat
                (r.Time.In (formatter.newOptions zi os).Location)
                (formatter.newOptions zi os).TimeFormat)
            ++ " level=INFO msg=\"" ++ r.Message ++ "\"\n") := by
    intro os
    rw [formatter.TextFormatter.Format_plain unixfloat _ r hs ha, hl,
      formatter.quoteValue_plain r.Message hsp hplain]
    simp only [formatter.Text, formatter.Level.String]
    congr 1
    apply String.ext
    simp [String.data_append]
  refine ⟨hgen opts, ?_⟩
  rw [hgen []]
  have hq := formatter.quoteValue_datetime unixfloat (r.Time.In zi.Local)
  have hloc : (formatter.newOptions zi []).Location = zi.Local := rfl
  have hfmt : (formatter.newOptions zi []).TimeFormat = "datetime" := rfl
  rw [hloc, hfmt, hq]
  refine congrArg Except.ok (String.ext ?_)
  simp only [String.data_append, List.append_assoc]
  rfl

/-- C6 at a concrete input: the scenario `hello world` with `Text()` in a
process whose local zone is eight hours east of UTC. -/
theorem formatter.TextFormatter.Format_spec_witness :
    (formatter.Text formatter.testZones []).Format formatter.testUnixfloat
        (formatter.newTestRecord "hello world")
      = .ok "time=\"2024-01-15 18:30:45\" level=INFO msg=\"hello world\"\n" :=
  (formatter.TextFormatter.Format_spec formatter.testUnixfloat formatter.testZones []
    (formatter.newTestRecord "hello world") rfl rfl rfl (by decide) (by decide)).2

/-- C6 as first stated fails.  The message `line1`, newline, `line 2` holds a
space, and its newline is written as the two characters `\n`
(`TestTextFormatter_EscapesNewlines`): whatever stands for `<T>`, the line is
not `time=<T> level=INFO msg="<message>"` with the message as it is.  And for
`hello world` the time value of `Text()` is double-quoted, so the line is not
the one with the rendered time as it is. -/
theorem formatter.TextFormatter.Format_newline_counterexample :
    (formatter.newTestRecord "line1\nline 2").Level = .LevelInfo
    ∧ (formatter.newTestRecord "line1\nline 2").Source = none
    ∧ (formatter.newTestRecord "line1\nline 2").Attrs = []
    ∧ ' ' ∈ (formatter.newTestRecord "line1\nline 2").Message.data
    ∧ (formatter.Text formatter.testZones []).Format formatter.testUnixfloat
          (formatter.newTestRecord "line1\nline 2")
        = .ok "time=\"2024-01-15 18:30:45\" level=INFO msg=\"line1\\nline 2\"\n"
    ∧ (∀ T : String,
        (formatter.Text formatter.testZones []).Format formatter.testUnixfloat
            (formatter.newTestRecord "line1\nline 2")
          ≠ .ok ("time=" ++ T ++ " level=INFO msg=\"" ++ "line1\nline 2" ++ "\"\n"))
    ∧ (formatter.Text formatter.testZones []).Format formatter.testUnixfloat
          (formatter.newTestRecord "hello world")
        ≠ .ok ("time="
            ++ formatter.formatTime formatter.testUnixfloat
                (formatter.testTime.In formatter.testZones.Local) "datetime"
            ++ " level=INFO msg=\"" ++ "hello world" ++ "\"\n") := by
  refine ⟨rfl, rfl, rfl, by decide, rfl, ?_, ?_⟩
  · intro T h
    have h3 : (" level=INFO msg=\"" ++ "line1\nline 2" ++ "\"\n").data
        <:+ ("time=\"2024-01-15 18:30:45\" level=INFO msg=\"line1\\nline 2\"\n").data := by
      refine ⟨("time=" ++ T).data, ?_⟩
      rw [show (formatter.Text formatter.testZones []).Format formatter.testUnixfloat
              (formatter.newTestRecord "line1\nline 2")
            = .ok "time=\"2024-01-15 18:30:45\" level=INFO msg=\"line1\\nline 2\"\n" from rfl]
        at h
      have h4 := congrArg String.data (Except.ok.inj h)
      rw [h4]
      simp [String.data_append]
    revert h3
    decide
  · intro h
    have h2 := Except.ok.inj h
    revert h2
    decide

/-- C5 at a concrete input: a name the zone database does not hold gives the
local zone. -/
theorem formatter.loadTimezone_spec_witness :
    formatter.loadTimezone formatter.testZones "Invalid/Zone" = formatter.testZones.Local :=
  (formatter.loadTimezone_spec formatter.testZones "Invalid/Zone").2.1 (by decide) rfl

/-- The text tests of `formatter_test.go` (`BasicOutput`, `QuotesSpaces`,
`EscapesNewlines`, `WithAttrs`, `WithSource`), with the whole line instead of
the substrings the tests look for. -/
theorem formatter.TestTextFormatter :
    (formatter.Text formatter.testZones []).Format formatter.testUnixfloat
        (formatter.newTestRecord "test message")
      = .ok "time=\"2024-01-15 18:30:45\" level=INFO msg=\"test message\"\n"
    ∧ (formatter.Text formatter.testZones []).Format formatter.testUnixfloat
        (formatter.newTestRecord "message with spaces")
      = .ok "time=\"2024-01-15 18:30:45\" level=INFO msg=\"message with spaces\"\n"
    ∧ (formatter.Text formatter.testZones []).Format formatter.testUnixfloat
        (formatter.newTestRecord "line1\nline2")
      = .ok "time=\"2024-01-15 18:30:45\" level=INFO msg=\"line1\\nline2\"\n"
    ∧ (formatter.Text formatter.testZones []).Format formatter.testUnixfloat
        { formatter.newTestRecord "test" with
          Attrs := [.string "key" "value", .int64 "count" 42] }
      = .ok "time=\"2024-01-15 18:30:45\" level=INFO msg=test key=value count=42\n"
    ∧ (formatter.Text formatter.testZones []).Format formatter.testUnixfloat
        { formatter.newTestRecord "test" with
          Source := some { Function := "", File := "/app/main.go", Line := 42 } }
      = .ok "time=\"2024-01-15 18:30:45\" level=INFO msg=test source=/app/main.go:42\n" :=
  ⟨rfl, rfl, rfl, rfl, rfl⟩

/-- `EnvConfig` in a sandbox with two overrides, and in the empty
environment. -/
theorem logger.EnvConfig_examples :
    logger.EnvConfig id
        (fun k => if k = "IS_SANDBOX" then some "TRUE" else if k = "LOG_LEVEL" then some "WARN"
          else if k = "LOG_ADD_SOURCE" then some "0" else none)
      = { Level := "WARN", Format := "color", Output := "stdout", AddSource := false,
          TimeFormat := "time", Timezone := "Asia/Shanghai" }
    ∧ logger.EnvConfig id (fun _ => none)
      = { Level := "INFO", Format := "json", Output := "stdout", AddSource := false,
          TimeFormat := "datetime", Timezone := "Asia/Shanghai" } := by
  decide

/-- `FromEnv` with a recognised and with an unknown `LOG_FORMAT`. -/
theorem logm.FromEnv_examples (zi : time.Zoneinfo) :
    logm.FromEnv id zi
        (fun k => if k = "IS_SANDBOX" then some "1" else if k = "LOG_FORMAT" then some "Text"
          else if k = "LOG_TIME_FORMAT" then some "rfc3339" else none)
      = logm.Development zi
          ++ [.WithFormatter (.text (formatter.Text zi [])), .WithTimeFormat "rfc3339"]
    ∧ logm.FromEnv id zi
        (fun k => if k = "LOG_FORMAT" then some "yaml" else if k = "LOG_LEVEL" then some "ERROR"
          else none)
      = logm.Production zi ++ [.WithLevel "ERROR"] :=
  ⟨rfl, rfl⟩
